import Mathlib

/-!
Shallow embedding of `src/gee_scripts/extraction_script.js` (Google Earth
Engine extraction script of the Bihar risk atlas).

The script builds four per-block tables and exports them:
  * Sentinel-2 NDVI, reduced per image at scale 10;
  * monthly CHIRPS rainfall (calendar-month sums of daily images), reduced
    at scale 5000;
  * MODIS MOD16A2 ET (scaled by 0.1), reduced per image at scale 500;
  * MODIS MOD13Q1 NDVI (scaled by 0.0001), reduced per image at scale 250.

Modelling choices:
  * an image is a date plus, for every reduction scale and block id, the
    list of (unmasked) pixel values of its single band over that block;
    an empty list means the block carries no valid pixels in the image;
  * `reduceRegions` with the mean reducer emits one feature (row) per
    block; when the block has no valid pixels the `mean` property is
    absent, modelled as `none`;
  * `filterDate(start, end)` keeps images dated in `[start, end)` (the end
    date is exclusive), comparing timestamps, i.e. dates lexicographically;
  * reducing an empty image collection (`sum()` of a month with no daily
    scenes) yields a fully masked image, modelled as `none` pixels.
-/

namespace BiharAtlas

/-- A calendar date as carried by `ee.Date` properties: year, month (1-12),
day of month. -/
structure Date where
  year : Int
  month : Int
  day : Int
deriving DecidableEq, Repr

/-- The date is a real calendar date (months 1-12, days 1-31). -/
def Date.validYMD (d : Date) : Prop :=
  1 ≤ d.month ∧ d.month ≤ 12 ∧ 1 ≤ d.day ∧ d.day ≤ 31

instance (d : Date) : Decidable d.validYMD := by
  unfold Date.validYMD; infer_instance

/-- Timestamp order on dates: lexicographic on (year, month, day). -/
def Date.before (a b : Date) : Prop :=
  a.year < b.year ∨
    (a.year = b.year ∧
      (a.month < b.month ∨ (a.month = b.month ∧ a.day < b.day)))

instance (a b : Date) : Decidable (a.before b) := by
  unfold Date.before; infer_instance

/-- A single-band image.  `pix s b` is the list of pixel values of the band
over block `b` when the image is sampled at reduction scale `s` (metres);
`[]` means the block is fully masked / outside the footprint.
`intersectsBlocks` records whether the scene's footprint intersects the
block collection (consulted by `filterBounds`). -/
structure Image where
  date : Date
  intersectsBlocks : Bool
  pix : ℚ → Nat → List ℚ

/-- A raw Sentinel-2 surface-reflectance scene: two bands (`B8`, `B4`) and
the per-scene `CLOUDY_PIXEL_PERCENTAGE` metadata. -/
structure S2Image where
  date : Date
  intersectsBlocks : Bool
  cloudyPixelPercentage : ℚ
  b8 : ℚ → Nat → List ℚ
  b4 : ℚ → Nat → List ℚ

/-- `var startDate = '2019-01-01'` -/
def startDate : Date := ⟨2019, 1, 1⟩

/-- `var endDate = '2024-12-31'` -/
def endDate : Date := ⟨2024, 12, 31⟩

/-- `.filterDate(s, e)`: keeps images dated in `[s, e)`; the end date is
exclusive.  Parameterised by the date accessor so it applies to raw
Sentinel-2 scenes as well. -/
def filterDate {α : Type} (dateOf : α → Date) (s e : Date) (col : List α) :
    List α :=
  col.filter fun x => decide (¬ (dateOf x).before s ∧ (dateOf x).before e)

/-- `.filterBounds(blocks)`: keeps images whose footprint intersects the
block collection. -/
def filterBounds {α : Type} (boundsOf : α → Bool) (col : List α) : List α :=
  col.filter boundsOf

/-- `img.normalizedDifference(['B8','B4'])`: per-pixel (B8-B4)/(B8+B4). -/
def normalizedDifference (x y : List ℚ) : List ℚ :=
  List.zipWith (fun a b => (a - b) / (a + b)) x y

/-- The per-scene NDVI computation of the `s2` pipeline:
`img.normalizedDifference(['B8','B4']).rename('NDVI')` keeping the
acquisition time. -/
def toNdviImage (img : S2Image) : Image :=
  { date := img.date, intersectsBlocks := img.intersectsBlocks,
    pix := fun s b => normalizedDifference (img.b8 s b) (img.b4 s b) }

/-- The Sentinel-2 pipeline `s2`: filterBounds, filterDate, cloud filter
`ee.Filter.lt('CLOUDY_PIXEL_PERCENTAGE', 40)`, then map each scene to its
NDVI band. -/
def s2 (raw : List S2Image) : List Image :=
  (((filterBounds S2Image.intersectsBlocks raw)
        |> filterDate S2Image.date startDate endDate)
      |>.filter fun img => decide (img.cloudyPixelPercentage < 40))
    |>.map toNdviImage

/-- One row of an exported table: the block feature with the reducer output
(`value`, absent when the block had no valid pixels) and the `year` and
`month` properties set on it. -/
structure Row where
  block : Nat
  year : Int
  month : Int
  value : Option ℚ
deriving DecidableEq, Repr

/-- The mean reducer over a block's pixel list: absent when no valid
pixels. -/
def meanOfPixels (ps : List ℚ) : Option ℚ :=
  if ps = [] then none else some (ps.sum / ps.length)

/-- `img.reduceRegions({collection: blocks, reducer: mean, scale})` followed
by setting `year`/`month` from the image date: one row per block. -/
def reduceRegionsMean (blocks : List Nat) (scale : ℚ) (img : Image) :
    List Row :=
  blocks.map fun b =>
    { block := b, year := img.date.year, month := img.date.month,
      value := meanOfPixels (img.pix scale b) }

/-- `ndviTable` (first occurrence): per-image reduction of the Sentinel-2
NDVI collection at scale 10. -/
def ndviTableS2 (blocks : List Nat) (raw : List S2Image) : List Row :=
  (s2 raw).flatMap (reduceRegionsMean blocks 10)

/-- The CHIRPS daily collection after `filterBounds` and
`filterDate(startDate, endDate)`. -/
def chirps (raw : List Image) : List Image :=
  filterDate Image.date startDate endDate
    (filterBounds Image.intersectsBlocks raw)

/-- A monthly composite built by the script: `year`/`month` properties and
the summed band.  `pix s b = none` models the fully masked result of
summing an empty collection. -/
structure MonthlyImage where
  year : Int
  month : Int
  pix : ℚ → Nat → Option (List ℚ)

/-- Pixelwise addition of two equally gridded pixel lists. -/
def zipAdd (x y : List ℚ) : List ℚ :=
  List.zipWith (· + ·) x y

/-- `col.sum()`: the per-pixel sum of an image collection over a block;
fully masked (`none`) when the collection is empty. -/
def sumPix (col : List Image) (s : ℚ) (b : Nat) : Option (List ℚ) :=
  match col with
  | [] => none
  | i :: rest => some (rest.foldl (fun acc j => zipAdd acc (j.pix s b)) (i.pix s b))

/-- `ee.Date.fromYMD(y, m, 1)` -/
def monthStart (y m : Int) : Date := ⟨y, m, 1⟩

/-- `ee.Date.fromYMD(y, m, 1).advance(1, 'month')` -/
def nextMonthStart (y m : Int) : Date :=
  if m = 12 then ⟨y + 1, 1, 1⟩ else ⟨y, m + 1, 1⟩

/-- `ee.List.sequence(2019, 2024)` (both endpoints inclusive). -/
def years : List Int := [2019, 2020, 2021, 2022, 2023, 2024]

/-- `ee.List.sequence(1, 12)` (both endpoints inclusive). -/
def monthsList : List Int := [1, 2, 3, 4, 5, 6, 7, 8, 9, 10, 11, 12]

/-- `monthlyRain`: for every year 2019-2024 and month 1-12, the sum of the
(globally date-filtered) CHIRPS dailies within `[fromYMD(y,m,1),
advance(1,'month'))`, with `year` and `month` properties set. -/
def monthlyRain (chirpsCol : List Image) : List MonthlyImage :=
  years.flatMap fun y => monthsList.map fun m =>
    { year := y, month := m,
      pix := fun s b =>
        sumPix (filterDate Image.date (monthStart y m) (nextMonthStart y m)
          chirpsCol) s b }

/-- `reduceRegions` over a monthly composite, with `year`/`month` taken from
the composite's properties. -/
def reduceRegionsMeanMonthly (blocks : List Nat) (scale : ℚ)
    (img : MonthlyImage) : List Row :=
  blocks.map fun b =>
    { block := b, year := img.year, month := img.month,
      value := (img.pix scale b).bind meanOfPixels }

/-- `rainTable`: per-monthly-image reduction of `monthlyRain` at scale
5000. -/
def rainTable (blocks : List Nat) (raw : List Image) : List Row :=
  (monthlyRain (chirps raw)).flatMap (reduceRegionsMeanMonthly blocks 5000)

/-- `img.multiply(c)`: the scale factor applied to every pixel of the
band. -/
def scaleImage (c : ℚ) (img : Image) : Image :=
  { img with pix := fun s b => (img.pix s b).map (· * c) }

/-- `.map(function(img){ return img.multiply(c) ... })`: per-pixel scale
factor applied to every image of a collection. -/
def mapScale (c : ℚ) (col : List Image) : List Image :=
  col.map (scaleImage c)

/-- `etCol`: MOD16A2 after filterBounds, filterDate, `select('ET')` (band
projection, implicit in the single-band model) and the 0.1 scale factor. -/
def etCol (raw : List Image) : List Image :=
  mapScale 0.1
    (filterDate Image.date startDate endDate
      (filterBounds Image.intersectsBlocks raw))

/-- `etTable`: per-image reduction of the scaled ET collection at scale
500. -/
def etTable (blocks : List Nat) (raw : List Image) : List Row :=
  (etCol raw).flatMap (reduceRegionsMean blocks 500)

/-- `ndvi`: MOD13Q1 after filterBounds, filterDate('2019-01-01',
'2024-12-31'), `select('NDVI')` and the 0.0001 scale factor. -/
def modisNdvi (raw : List Image) : List Image :=
  mapScale 0.0001
    (filterDate Image.date ⟨2019, 1, 1⟩ ⟨2024, 12, 31⟩
      (filterBounds Image.intersectsBlocks raw))

/-- `ndviTable` (second occurrence): per-image reduction of the scaled
MOD13Q1 NDVI collection at scale 250. -/
def ndviTableModis (blocks : List Nat) (raw : List Image) : List Row :=
  (modisNdvi raw).flatMap (reduceRegionsMean blocks 250)

/-- One `Export.table.toDrive({collection, description, fileFormat})`
call. -/
structure ExportCall where
  table : List Row
  description : String
  fileFormat : String

/-- The four export calls the script issues, in script order. -/
def scriptExports (blocks : List Nat) (s2Raw : List S2Image)
    (chirpsRaw etRaw modisRaw : List Image) : List ExportCall :=
  [ { table := ndviTableS2 blocks s2Raw, description := "Bihar_Block_NDVI",
      fileFormat := "CSV" },
    { table := rainTable blocks chirpsRaw,
      description := "Bihar_Block_Rainfall", fileFormat := "CSV" },
    { table := etTable blocks etRaw, description := "Bihar_Block_ET",
      fileFormat := "CSV" },
    { table := ndviTableModis blocks modisRaw,
      description := "Bihar_Block_NDVI", fileFormat := "CSV" } ]

/-- `(block, year, month)` is a unique key of the table: no two rows share
the triple. -/
def uniqueKey (t : List Row) : Prop :=
  t.Pairwise fun r s => (r.block, r.year, r.month) ≠ (s.block, s.year, s.month)

instance (t : List Row) : Decidable (uniqueKey t) := by
  unfold uniqueKey; exact List.instDecidablePairwise t

/-- The spec's reading of the monthly rainfall value: the sum, over all
daily rainfall images of the source dataset whose date falls within
calendar month `(y, m)`, of the block's mean daily value (absent when the
month has no daily image). -/
def calendarMonthSumOfDailyMeans (raw : List Image) (y m : Int) (scale : ℚ)
    (b : Nat) : Option ℚ :=
  let dailies := raw.filter fun i => decide (i.date.year = y ∧ i.date.month = m)
  if dailies.isEmpty then none
  else some (dailies.filterMap (fun i => meanOfPixels (i.pix scale b))).sum

/-- The amended reading of the monthly rainfall value: the same
calendar-month sum of daily block means, but restricted to the daily images
that pass the script's global filters (footprint intersection and the
extraction window `[startDate, endDate)`, whose end date is exclusive). -/
def windowedCalendarMonthSum (raw : List Image) (y m : Int) (scale : ℚ)
    (b : Nat) : Option ℚ :=
  let dailies := raw.filter fun i =>
    decide ((i.date.year = y ∧ i.date.month = m) ∧ i.intersectsBlocks = true ∧
      ¬ i.date.before startDate ∧ i.date.before endDate)
  if dailies.isEmpty then none
  else some (dailies.filterMap (fun i => meanOfPixels (i.pix scale b))).sum

/-! ### Characterisation lemmas for the pipeline combinators -/

theorem mem_filterBounds {α : Type} {boundsOf : α → Bool} {col : List α}
    {x : α} :
    x ∈ filterBounds boundsOf col ↔ x ∈ col ∧ boundsOf x = true := by
  simp [filterBounds, List.mem_filter]

theorem mem_filterDate {α : Type} {dateOf : α → Date} {s e : Date}
    {col : List α} {x : α} :
    x ∈ filterDate dateOf s e col ↔
      x ∈ col ∧ ¬ (dateOf x).before s ∧ (dateOf x).before e := by
  simp [filterDate, List.mem_filter]

theorem mem_s2 {raw : List S2Image} {img : Image} :
    img ∈ s2 raw ↔ ∃ j ∈ raw, j.intersectsBlocks = true ∧
      ¬ j.date.before startDate ∧ j.date.before endDate ∧
      j.cloudyPixelPercentage < 40 ∧ img = toNdviImage j := by
  simp only [s2, List.mem_map, List.mem_filter, mem_filterDate,
    mem_filterBounds, decide_eq_true_eq]
  constructor
  · rintro ⟨j, ⟨⟨⟨hj, hb⟩, hd1, hd2⟩, hc⟩, rfl⟩
    exact ⟨j, hj, hb, hd1, hd2, hc, rfl⟩
  · rintro ⟨j, hj, hb, hd1, hd2, hc, rfl⟩
    exact ⟨j, ⟨⟨⟨hj, hb⟩, hd1, hd2⟩, hc⟩, rfl⟩

theorem mem_mapScale {c : ℚ} {col : List Image} {img : Image} :
    img ∈ mapScale c col ↔ ∃ j ∈ col, img = scaleImage c j := by
  simp only [mapScale, List.mem_map, eq_comm]

theorem mem_reduceTable {blocks : List Nat} {scale : ℚ} {col : List Image}
    {r : Row} :
    r ∈ col.flatMap (reduceRegionsMean blocks scale) ↔
      ∃ img ∈ col, ∃ b ∈ blocks,
        r = ⟨b, img.date.year, img.date.month,
              meanOfPixels (img.pix scale b)⟩ := by
  simp only [List.mem_flatMap, reduceRegionsMean, List.mem_map]
  constructor
  · rintro ⟨img, hi, b, hb, rfl⟩
    exact ⟨img, hi, b, hb, rfl⟩
  · rintro ⟨img, hi, b, hb, rfl⟩
    exact ⟨img, hi, b, hb, rfl⟩

theorem mem_rainTable {blocks : List Nat} {raw : List Image} {r : Row} :
    r ∈ rainTable blocks raw ↔
      ∃ mi ∈ monthlyRain (chirps raw), ∃ b ∈ blocks,
        r = ⟨b, mi.year, mi.month, (mi.pix 5000 b).bind meanOfPixels⟩ := by
  simp only [rainTable, List.mem_flatMap, reduceRegionsMeanMonthly,
    List.mem_map]
  constructor
  · rintro ⟨mi, hi, b, hb, rfl⟩
    exact ⟨mi, hi, b, hb, rfl⟩
  · rintro ⟨mi, hi, b, hb, rfl⟩
    exact ⟨mi, hi, b, hb, rfl⟩

theorem mem_monthlyRain {chirpsCol : List Image} {mi : MonthlyImage} :
    mi ∈ monthlyRain chirpsCol ↔
      ∃ y ∈ years, ∃ m ∈ monthsList,
        mi = ⟨y, m, fun s b =>
          sumPix (filterDate Image.date (monthStart y m) (nextMonthStart y m)
            chirpsCol) s b⟩ := by
  simp only [monthlyRain, List.mem_flatMap, List.mem_map]
  constructor
  · rintro ⟨y, hy, m, hm, rfl⟩
    exact ⟨y, hy, m, hm, rfl⟩
  · rintro ⟨y, hy, m, hm, rfl⟩
    exact ⟨y, hy, m, hm, rfl⟩

theorem mem_years {y : Int} : y ∈ years ↔ 2019 ≤ y ∧ y ≤ 2024 := by
  simp only [years, List.mem_cons, List.not_mem_nil, or_false]
  omega

theorem mem_monthsList {m : Int} : m ∈ monthsList ↔ 1 ≤ m ∧ m ≤ 12 := by
  simp only [monthsList, List.mem_cons, List.not_mem_nil, or_false]
  omega

theorem sum_map_mul_const (c : ℚ) (ps : List ℚ) :
    (ps.map (· * c)).sum = ps.sum * c := by
  induction ps with
  | nil => simp
  | cons a l ih => simp [ih, add_mul]

/-- Scaling every pixel scales the block mean: the mean of the scaled
pixels is the scale factor times the mean of the raw pixels. -/
theorem meanOfPixels_map_mul (c : ℚ) (ps : List ℚ) :
    meanOfPixels (ps.map (· * c)) = (meanOfPixels ps).map (· * c) := by
  rcases eq_or_ne ps [] with rfl | h
  · simp [meanOfPixels]
  · rw [meanOfPixels, meanOfPixels, if_neg (by simpa using h), if_neg h]
    simp only [Option.map_some', List.length_map, sum_map_mul_const]
    congr 1
    ring

/-- The `(year, month)` keys of `monthlyRain` do not depend on the daily
collection: they are the 72 pairs of the year and month sequences, in
order. -/
theorem monthlyRain_keys (c : List Image) :
    (monthlyRain c).map (fun mi => (mi.year, mi.month)) =
      years.flatMap fun y => monthsList.map fun m => (y, m) := by
  simp only [monthlyRain, List.map_flatMap]
  apply List.flatMap_congr
  intro y _
  simp [Function.comp_def]

theorem monthlyRain_keys_nodup (c : List Image) :
    ((monthlyRain c).map fun mi => (mi.year, mi.month)).Nodup := by
  rw [monthlyRain_keys]
  decide

/-- `(block, year, month)` is a unique key exactly when the list of key
triples has no duplicate. -/
theorem uniqueKey_iff_nodup (t : List Row) :
    uniqueKey t ↔ (t.map fun r => (r.block, r.year, r.month)).Nodup := by
  unfold uniqueKey List.Nodup
  rw [List.pairwise_map]

/-- A date lies in the script's month window `[fromYMD(y,m,1),
advance(1,'month'))` exactly when its calendar year and month are `(y, m)`,
for real calendar dates and months 1-12. -/
theorem window_iff_month {d : Date} {y m : Int} (hd : d.validYMD) :
    (¬ d.before (monthStart y m) ∧ d.before (nextMonthStart y m)) ↔
      (d.year = y ∧ d.month = m) := by
  unfold Date.validYMD at hd
  unfold Date.before monthStart nextMonthStart
  by_cases h12 : m = 12 <;> simp only [h12, if_true, if_false, reduceIte] <;>
    omega

/-- If no image of a collection is dated `(y, m)`, its per-image table has
no `(y, m)` row. -/
theorem no_scene_no_row {blocks : List Nat} {scale : ℚ} {col : List Image}
    {y m : Int} (h : ∀ img ∈ col, ¬(img.date.year = y ∧ img.date.month = m)) :
    ∀ r ∈ col.flatMap (reduceRegionsMean blocks scale),
      ¬(r.year = y ∧ r.month = m) := by
  intro r hr
  rcases mem_reduceTable.mp hr with ⟨img, hi, b, hb, rfl⟩
  exact h img hi

/-- If every `(y, m)` scene of a collection carries no valid pixels over a
block, the table's `(b, y, m)` rows carry no value. -/
theorem no_pixels_no_value {blocks : List Nat} {scale : ℚ} {col : List Image}
    {b : Nat} {y m : Int}
    (h : ∀ img ∈ col, img.date.year = y → img.date.month = m →
      img.pix scale b = []) :
    ∀ r ∈ col.flatMap (reduceRegionsMean blocks scale),
      r.block = b → r.year = y → r.month = m → r.value = none := by
  intro r hr hb' hy hm
  rcases mem_reduceTable.mp hr with ⟨img, hi, b', hb, rfl⟩
  have : img.pix scale b' = [] := by
    subst hb'
    exact h img hi hy hm
  simp [this, meanOfPixels]

theorem foldl_zipAdd_nil (l : List Image) (s : ℚ) (b : Nat) :
    l.foldl (fun a j => zipAdd a (j.pix s b)) [] = [] := by
  induction l with
  | nil => rfl
  | cons j t ih => simpa [zipAdd] using ih

/-- Summing a collection in which the block carries no valid pixels (or an
empty collection) and taking the block mean yields no value. -/
theorem sumPix_bind_mean_eq_none {col : List Image} {s : ℚ} {b : Nat}
    (h : ∀ i ∈ col, i.pix s b = []) :
    (sumPix col s b).bind meanOfPixels = none := by
  cases col with
  | nil => rfl
  | cons i rest =>
    have hi := h i (List.mem_cons_self i rest)
    simp only [sumPix, hi, foldl_zipAdd_nil, Option.bind_some]
    simp [meanOfPixels]

/-- A per-image table has one row per scene per block. -/
theorem length_reduceTable (blocks : List Nat) (scale : ℚ)
    (col : List Image) :
    (col.flatMap (reduceRegionsMean blocks scale)).length =
      col.length * blocks.length := by
  induction col with
  | nil => simp
  | cons a l ih =>
    simp only [List.flatMap_cons, List.length_append, reduceRegionsMean,
      List.length_map, ih, List.length_cons]
    ring

/-- The key triples of the rainfall table, one block list per monthly
composite. -/
theorem rainTable_keys (blocks : List Nat) (raw : List Image) :
    (rainTable blocks raw).map (fun r => (r.block, r.year, r.month)) =
      (monthlyRain (chirps raw)).flatMap fun mi =>
        blocks.map fun b => (b, mi.year, mi.month) := by
  simp only [rainTable, List.map_flatMap]
  apply List.flatMap_congr
  intro mi _
  simp [reduceRegionsMeanMonthly, Function.comp_def]

theorem zipAdd_length {xs ys : List ℚ} (h : xs.length = ys.length) :
    (zipAdd xs ys).length = xs.length := by
  simp [zipAdd, h]

theorem zipAdd_sum {xs ys : List ℚ} (h : xs.length = ys.length) :
    (zipAdd xs ys).sum = xs.sum + ys.sum := by
  induction xs generalizing ys with
  | nil =>
    cases ys with
    | nil => simp [zipAdd]
    | cons b t => simp at h
  | cons a l ih =>
    cases ys with
    | nil => simp at h
    | cons b t =>
      have hl : l.length = t.length := by simpa using h
      simp only [zipAdd, List.zipWith_cons_cons, List.sum_cons]
      rw [show (List.zipWith (· + ·) l t).sum = l.sum + t.sum from ih hl]
      ring

theorem sum_map_div (c : ℚ) (l : List ℚ) :
    (l.map (· / c)).sum = l.sum / c := by
  induction l with
  | nil => simp
  | cons a t ih => simp [ih, add_div]

theorem foldl_zipAdd_length {s : ℚ} {b : Nat} {n : Nat} :
    ∀ (rest : List Image), (∀ i ∈ rest, (i.pix s b).length = n) →
      ∀ acc : List ℚ, acc.length = n →
        (rest.foldl (fun a j => zipAdd a (j.pix s b)) acc).length = n := by
  intro rest
  induction rest with
  | nil =>
    intro _ acc h
    exact h
  | cons j t ih =>
    intro hlen acc hacc
    have hj : (j.pix s b).length = n := hlen j (List.mem_cons_self j t)
    simp only [List.foldl_cons]
    apply ih (fun i hi => hlen i (List.mem_cons_of_mem j hi))
    rw [zipAdd_length (by rw [hacc, hj])]
    exact hacc

theorem foldl_zipAdd_sum {s : ℚ} {b : Nat} {n : Nat} :
    ∀ (rest : List Image), (∀ i ∈ rest, (i.pix s b).length = n) →
      ∀ acc : List ℚ, acc.length = n →
        (rest.foldl (fun a j => zipAdd a (j.pix s b)) acc).sum =
          acc.sum + (rest.map fun j => (j.pix s b).sum).sum := by
  intro rest
  induction rest with
  | nil =>
    intro _ acc _
    simp
  | cons j t ih =>
    intro hlen acc hacc
    have hj : (j.pix s b).length = n := hlen j (List.mem_cons_self j t)
    have hza : (zipAdd acc (j.pix s b)).length = n := by
      rw [zipAdd_length (by rw [hacc, hj])]
      exact hacc
    simp only [List.foldl_cons, List.map_cons, List.sum_cons]
    rw [ih (fun i hi => hlen i (List.mem_cons_of_mem j hi)) _ hza,
      zipAdd_sum (by rw [hacc, hj])]
    ring

/-- With a uniform pixel grid (all scenes have the same `n > 0` pixels over
the block), the block mean of the summed collection is the total pixel sum
divided by `n`; an empty collection has no value. -/
theorem sumPix_bind_mean {col : List Image} {s : ℚ} {b : Nat} {n : Nat}
    (hn : 0 < n) (hlen : ∀ i ∈ col, (i.pix s b).length = n) :
    (sumPix col s b).bind meanOfPixels =
      if col.isEmpty then none
      else some ((col.map fun i => (i.pix s b).sum).sum / (n : ℚ)) := by
  cases col with
  | nil => rfl
  | cons i rest =>
    have hi : (i.pix s b).length = n := hlen i (List.mem_cons_self i rest)
    have hrest : ∀ j ∈ rest, (j.pix s b).length = n :=
      fun j hj => hlen j (List.mem_cons_of_mem i hj)
    have hflen : (rest.foldl (fun a j => zipAdd a (j.pix s b))
        (i.pix s b)).length = n := foldl_zipAdd_length rest hrest _ hi
    have hfsum : (rest.foldl (fun a j => zipAdd a (j.pix s b))
        (i.pix s b)).sum =
          (i.pix s b).sum + (rest.map fun j => (j.pix s b).sum).sum :=
      foldl_zipAdd_sum rest hrest _ hi
    have hne : rest.foldl (fun a j => zipAdd a (j.pix s b)) (i.pix s b) ≠
        [] := by
      intro h
      rw [h] at hflen
      simp at hflen
      omega
    simp only [sumPix, Option.some_bind, List.isEmpty_cons, List.map_cons,
      List.sum_cons]
    rw [meanOfPixels, if_neg hne, hflen, hfsum]
    simp

/-- With a uniform nonempty pixel grid, collecting the per-scene block
means collects exactly the per-scene pixel sums divided by `n`. -/
theorem filterMap_mean_eq {col : List Image} {s : ℚ} {b : Nat} {n : Nat}
    (hn : 0 < n) (hlen : ∀ i ∈ col, (i.pix s b).length = n) :
    (col.filterMap fun i => meanOfPixels (i.pix s b)) =
      col.map fun i => (i.pix s b).sum / (n : ℚ) := by
  induction col with
  | nil => rfl
  | cons i t ih =>
    have hi : (i.pix s b).length = n := hlen i (List.mem_cons_self i t)
    have hne : i.pix s b ≠ [] := by
      intro h
      rw [h] at hi
      simp at hi
      omega
    have hmean : meanOfPixels (i.pix s b) =
        some ((i.pix s b).sum / (n : ℚ)) := by
      rw [meanOfPixels, if_neg hne, hi]
    simp only [List.filterMap_cons, hmean, List.map_cons]
    rw [ih fun j hj => hlen j (List.mem_cons_of_mem i hj)]

/-! ### Concrete scenes used to separate the spec from the code -/

/-- A cloud-free Sentinel-2 scene of 2019-03-05: B8 = 3, B4 = 1 over the
single pixel of block 0, so its NDVI is (3-1)/(3+1) = 1/2. -/
def cexS2a : S2Image :=
  { date := ⟨2019, 3, 5⟩, intersectsBlocks := true,
    cloudyPixelPercentage := 10, b8 := fun _ _ => [3], b4 := fun _ _ => [1] }

/-- A second cloud-free Sentinel-2 scene of the same month, 2019-03-20:
B8 = 1, B4 = 3, NDVI = -1/2. -/
def cexS2b : S2Image :=
  { date := ⟨2019, 3, 20⟩, intersectsBlocks := true,
    cloudyPixelPercentage := 5, b8 := fun _ _ => [1], b4 := fun _ _ => [3] }

/-- A CHIRPS daily image of 2024-12-15 with block mean 2. -/
def cexRainMid : Image :=
  { date := ⟨2024, 12, 15⟩, intersectsBlocks := true, pix := fun _ _ => [2] }

/-- A CHIRPS daily image of 2024-12-31 — the last day of the extraction
range — with block mean 5. -/
def cexRainLast : Image :=
  { date := ⟨2024, 12, 31⟩, intersectsBlocks := true, pix := fun _ _ => [5] }

/-! ### Claim theorems -/

/-- C8: the script issues exactly two vegetation-index table exports, both
carrying the identical description string `'Bihar_Block_NDVI'` — one for
the Sentinel-2 10m NDVI table and one for the MODIS 250m scaled NDVI
table — so two distinct vegetation-index datasets, produced with different
sensors, resolutions and cloud filtering, are exported under the same
name. -/
theorem c8_two_ndvi_exports_same_description (blocks : List Nat)
    (s2Raw : List S2Image) (chirpsRaw etRaw modisRaw : List Image) :
    ((scriptExports blocks s2Raw chirpsRaw etRaw modisRaw).map
        ExportCall.description) =
      ["Bihar_Block_NDVI", "Bihar_Block_Rainfall", "Bihar_Block_ET",
        "Bihar_Block_NDVI"] ∧
    ((scriptExports blocks s2Raw chirpsRaw etRaw modisRaw).filter
        (fun e => e.description == "Bihar_Block_NDVI")).map
        ExportCall.table =
      [ndviTableS2 blocks s2Raw, ndviTableModis blocks modisRaw] ∧
    (scriptExports blocks s2Raw chirpsRaw etRaw modisRaw).countP
        (fun e => e.description == "Bihar_Block_NDVI") = 2 := by
  refine ⟨rfl, ?_, ?_⟩ <;> simp [scriptExports, List.countP_cons]

/-- C4: every per-block spatial reduction uses the variable-specific
resolution: every Sentinel-2 NDVI row is the block mean of an `s2` image
sampled at scale 10, every MODIS NDVI row is at scale 250, every ET row at
scale 500, and every rainfall row the block mean of a monthly composite
sampled at scale 5000. -/
theorem c4_variable_specific_scales (blocks : List Nat)
    (s2Raw : List S2Image) (chirpsRaw etRaw modisRaw : List Image) :
    (∀ r ∈ ndviTableS2 blocks s2Raw, ∃ img ∈ s2 s2Raw,
        r.year = img.date.year ∧ r.month = img.date.month ∧
        r.value = meanOfPixels (img.pix 10 r.block)) ∧
    (∀ r ∈ ndviTableModis blocks modisRaw, ∃ img ∈ modisNdvi modisRaw,
        r.year = img.date.year ∧ r.month = img.date.month ∧
        r.value = meanOfPixels (img.pix 250 r.block)) ∧
    (∀ r ∈ etTable blocks etRaw, ∃ img ∈ etCol etRaw,
        r.year = img.date.year ∧ r.month = img.date.month ∧
        r.value = meanOfPixels (img.pix 500 r.block)) ∧
    (∀ r ∈ rainTable blocks chirpsRaw, ∃ mi ∈ monthlyRain (chirps chirpsRaw),
        r.year = mi.year ∧ r.month = mi.month ∧
        r.value = (mi.pix 5000 r.block).bind meanOfPixels) := by
  refine ⟨?_, ?_, ?_, ?_⟩
  · intro r hr
    simp only [ndviTableS2] at hr
    rcases mem_reduceTable.mp hr with ⟨img, hi, b, hb, rfl⟩
    exact ⟨img, hi, rfl, rfl, rfl⟩
  · intro r hr
    simp only [ndviTableModis] at hr
    rcases mem_reduceTable.mp hr with ⟨img, hi, b, hb, rfl⟩
    exact ⟨img, hi, rfl, rfl, rfl⟩
  · intro r hr
    simp only [etTable] at hr
    rcases mem_reduceTable.mp hr with ⟨img, hi, b, hb, rfl⟩
    exact ⟨img, hi, rfl, rfl, rfl⟩
  · intro r hr
    rcases mem_rainTable.mp hr with ⟨mi, hi, b, hb, rfl⟩
    exact ⟨mi, hi, rfl, rfl, rfl⟩

/-- C5: Sentinel-2 is the collection whose scenes carry per-scene cloud
metadata; every scene with `CLOUDY_PIXEL_PERCENTAGE` ≥ 40 is excluded
before reduction: every exported NDVI row derives from a scene with cloud
cover < 40, and removing all the ≥ 40 scenes from the input leaves the
exported table unchanged. -/
theorem c5_cloud_threshold_excludes_scenes (blocks : List Nat)
    (s2Raw : List S2Image) :
    (∀ r ∈ ndviTableS2 blocks s2Raw, ∃ j ∈ s2Raw,
        j.cloudyPixelPercentage < 40 ∧
        r.year = j.date.year ∧ r.month = j.date.month ∧
        r.value = meanOfPixels ((toNdviImage j).pix 10 r.block)) ∧
    ndviTableS2 blocks s2Raw =
      ndviTableS2 blocks
        (s2Raw.filter fun j => decide (j.cloudyPixelPercentage < 40)) := by
  constructor
  · intro r hr
    simp only [ndviTableS2] at hr
    rcases mem_reduceTable.mp hr with ⟨img, hi, b, hb, rfl⟩
    rcases mem_s2.mp hi with ⟨j, hj, _, _, _, hc, rfl⟩
    exact ⟨j, hj, hc, rfl, rfl, rfl⟩
  · simp only [ndviTableS2, s2, filterBounds, filterDate, List.filter_filter]
    refine congrArg (fun l => List.flatMap l (reduceRegionsMean blocks 10))
      (congrArg (List.map toNdviImage) (List.filter_congr ?_))
    intro a _
    by_cases h1 : a.cloudyPixelPercentage < 40 <;>
      by_cases h2 : a.intersectsBlocks = true <;>
        simp [h1, h2]

/-- C3: the published scale factor (0.1 for ET, 0.0001 for MODIS NDVI) is
multiplied into the pixel values before the per-block spatial mean is
taken: every exported ET and MODIS-NDVI value is the mean of the
already-scaled pixels of its source scene, equivalently the scale factor
times the mean of the raw pixels. -/
theorem c3_scale_factor_applied_before_mean (blocks : List Nat)
    (etRaw modisRaw : List Image) :
    (∀ r ∈ etTable blocks etRaw, ∃ j ∈ filterDate Image.date startDate
        endDate (filterBounds Image.intersectsBlocks etRaw),
        r.value = meanOfPixels ((j.pix 500 r.block).map (· * 0.1)) ∧
        r.value = (meanOfPixels (j.pix 500 r.block)).map (· * 0.1)) ∧
    (∀ r ∈ ndviTableModis blocks modisRaw, ∃ j ∈ filterDate Image.date
        ⟨2019, 1, 1⟩ ⟨2024, 12, 31⟩
        (filterBounds Image.intersectsBlocks modisRaw),
        r.value = meanOfPixels ((j.pix 250 r.block).map (· * 0.0001)) ∧
        r.value = (meanOfPixels (j.pix 250 r.block)).map (· * 0.0001)) := by
  constructor
  · intro r hr
    simp only [etTable] at hr
    rcases mem_reduceTable.mp hr with ⟨img, hi, b, hb, rfl⟩
    rcases mem_mapScale.mp hi with ⟨j, hj, rfl⟩
    exact ⟨j, hj, rfl, meanOfPixels_map_mul 0.1 (j.pix 500 b)⟩
  · intro r hr
    simp only [ndviTableModis] at hr
    rcases mem_reduceTable.mp hr with ⟨img, hi, b, hb, rfl⟩
    rcases mem_mapScale.mp hi with ⟨j, hj, rfl⟩
    exact ⟨j, hj, rfl, meanOfPixels_map_mul 0.0001 (j.pix 250 b)⟩

/-- C6: a block-period with no valid scenes never receives a fabricated
value: a collection with no scene dated `(y, m)` contributes no `(y, m)`
row to its table, and when every scene of the period carries no valid
pixels over a block, the block's rows of that period carry no value at all
(`none`) — nothing is interpolated or invented, for any of the four
exported tables. -/
theorem c6_no_fabricated_values (blocks : List Nat) (s2Raw : List S2Image)
    (chirpsRaw etRaw modisRaw : List Image) (b : Nat) (y m : Int) :
    ((∀ img ∈ s2 s2Raw, ¬(img.date.year = y ∧ img.date.month = m)) →
      ∀ r ∈ ndviTableS2 blocks s2Raw, ¬(r.year = y ∧ r.month = m)) ∧
    ((∀ img ∈ etCol etRaw, ¬(img.date.year = y ∧ img.date.month = m)) →
      ∀ r ∈ etTable blocks etRaw, ¬(r.year = y ∧ r.month = m)) ∧
    ((∀ img ∈ modisNdvi modisRaw, ¬(img.date.year = y ∧ img.date.month = m)) →
      ∀ r ∈ ndviTableModis blocks modisRaw, ¬(r.year = y ∧ r.month = m)) ∧
    ((∀ img ∈ s2 s2Raw, img.date.year = y → img.date.month = m →
        img.pix 10 b = []) →
      ∀ r ∈ ndviTableS2 blocks s2Raw, r.block = b → r.year = y →
        r.month = m → r.value = none) ∧
    ((∀ img ∈ etCol etRaw, img.date.year = y → img.date.month = m →
        img.pix 500 b = []) →
      ∀ r ∈ etTable blocks etRaw, r.block = b → r.year = y →
        r.month = m → r.value = none) ∧
    ((∀ img ∈ modisNdvi modisRaw, img.date.year = y → img.date.month = m →
        img.pix 250 b = []) →
      ∀ r ∈ ndviTableModis blocks modisRaw, r.block = b → r.year = y →
        r.month = m → r.value = none) ∧
    ((∀ i ∈ chirps chirpsRaw, ¬ i.date.before (monthStart y m) →
        i.date.before (nextMonthStart y m) → i.pix 5000 b = []) →
      ∀ r ∈ rainTable blocks chirpsRaw, r.block = b → r.year = y →
        r.month = m → r.value = none) := by
  refine ⟨fun h => no_scene_no_row h, fun h => no_scene_no_row h,
    fun h => no_scene_no_row h, fun h => no_pixels_no_value h,
    fun h => no_pixels_no_value h, fun h => no_pixels_no_value h, ?_⟩
  intro h r hr hb' hy hm'
  rcases mem_rainTable.mp hr with ⟨mi, hmi, b', hb, rfl⟩
  rcases mem_monthlyRain.mp hmi with ⟨y', hy', m', hm'', rfl⟩
  subst hb' hy hm'
  apply sumPix_bind_mean_eq_none
  intro i hi
  rcases mem_filterDate.mp hi with ⟨hic, h1, h2⟩
  exact h i hic h1 h2

/-- C7: every row of every exported extraction table is tagged with a block
identifier drawn from the block collection, an integer year (`year` is of
integer type), an integer month in 1..12 inclusive, and the value column is
the spatial mean of a pixel list for the variable (absent when the block
had no valid pixels, since the mean of an empty pixel list is absent). -/
theorem c7_rows_tagged (blocks : List Nat) (s2Raw : List S2Image)
    (chirpsRaw etRaw modisRaw : List Image)
    (hs2 : ∀ j ∈ s2Raw, j.date.validYMD)
    (het : ∀ j ∈ etRaw, j.date.validYMD)
    (hmo : ∀ j ∈ modisRaw, j.date.validYMD) :
    ∀ e ∈ scriptExports blocks s2Raw chirpsRaw etRaw modisRaw,
      ∀ r ∈ e.table,
        r.block ∈ blocks ∧ 1 ≤ r.month ∧ r.month ≤ 12 ∧
        ∃ ps : List ℚ, r.value = meanOfPixels ps := by
  have hval : ∀ (r : Row), (∃ ps : List ℚ, r.value = meanOfPixels ps) ∨
      r.value = none → ∃ ps : List ℚ, r.value = meanOfPixels ps := by
    rintro r (h | h)
    · exact h
    · exact ⟨[], by simp [h, meanOfPixels]⟩
  intro e he
  simp only [scriptExports, List.mem_cons, List.not_mem_nil, or_false] at he
  rcases he with rfl | rfl | rfl | rfl
  · intro r hr
    simp only [ndviTableS2] at hr
    rcases mem_reduceTable.mp hr with ⟨img, hi, b, hb, rfl⟩
    rcases mem_s2.mp hi with ⟨j, hj, _, _, _, _, rfl⟩
    have hd := hs2 j hj
    unfold Date.validYMD at hd
    exact ⟨hb, by exact hd.1, by exact hd.2.1, _, rfl⟩
  · intro r hr
    rcases mem_rainTable.mp hr with ⟨mi, hmi, b, hb, rfl⟩
    rcases mem_monthlyRain.mp hmi with ⟨y', hy', m', hm', rfl⟩
    have hmb := mem_monthsList.mp hm'
    refine ⟨hb, hmb.1, hmb.2, hval _ ?_⟩
    cases hsp : (MonthlyImage.pix ⟨y', m', _⟩ 5000 b) with
    | none => right; simp [hsp]
    | some l => left; exact ⟨l, by simp [hsp]⟩
  · intro r hr
    simp only [etTable] at hr
    rcases mem_reduceTable.mp hr with ⟨img, hi, b, hb, rfl⟩
    rcases mem_mapScale.mp hi with ⟨j, hj, rfl⟩
    rcases mem_filterDate.mp hj with ⟨hjb, _, _⟩
    rcases mem_filterBounds.mp hjb with ⟨hjr, _⟩
    have hd := het j hjr
    unfold Date.validYMD at hd
    exact ⟨hb, by exact hd.1, by exact hd.2.1, _, rfl⟩
  · intro r hr
    simp only [ndviTableModis] at hr
    rcases mem_reduceTable.mp hr with ⟨img, hi, b, hb, rfl⟩
    rcases mem_mapScale.mp hi with ⟨j, hj, rfl⟩
    rcases mem_filterDate.mp hj with ⟨hjb, _, _⟩
    rcases mem_filterBounds.mp hjb with ⟨hjr, _⟩
    have hd := hmo j hjr
    unfold Date.validYMD at hd
    exact ⟨hb, by exact hd.1, by exact hd.2.1, _, rfl⟩

/-- C9: the monthly rainfall collection contains exactly one image for
every (year, month) pair with year in 2019..2024 and month in 1..12 — 72
images in total — constructed unconditionally from the year and month
sequences (for any daily input, including months with no scenes), and the
rainfall table consequently contains an entry for every block for every one
of the 72 months. -/
theorem c9_rain_72_months_unconditional (blocks : List Nat)
    (chirpsRaw : List Image) :
    (monthlyRain (chirps chirpsRaw)).length = 72 ∧
    ((monthlyRain (chirps chirpsRaw)).map fun mi => (mi.year, mi.month)).Nodup ∧
    (∀ y m : Int,
      ((y, m) ∈ (monthlyRain (chirps chirpsRaw)).map
          fun mi => (mi.year, mi.month)) ↔
        (2019 ≤ y ∧ y ≤ 2024 ∧ 1 ≤ m ∧ m ≤ 12)) ∧
    (∀ b ∈ blocks, ∀ y m : Int, 2019 ≤ y → y ≤ 2024 → 1 ≤ m → m ≤ 12 →
      ∃ r ∈ rainTable blocks chirpsRaw,
        r.block = b ∧ r.year = y ∧ r.month = m) := by
  have hkeys := monthlyRain_keys (chirps chirpsRaw)
  have hmem : ∀ y m : Int,
      ((y, m) ∈ (monthlyRain (chirps chirpsRaw)).map
          fun mi => (mi.year, mi.month)) ↔
        (2019 ≤ y ∧ y ≤ 2024 ∧ 1 ≤ m ∧ m ≤ 12) := by
    intro y m
    rw [hkeys]
    simp only [List.mem_flatMap, List.mem_map, Prod.mk.injEq]
    constructor
    · rintro ⟨y', hy', m', hm', rfl, rfl⟩
      have h1 := mem_years.mp hy'
      have h2 := mem_monthsList.mp hm'
      exact ⟨h1.1, h1.2, h2.1, h2.2⟩
    · rintro ⟨h1, h2, h3, h4⟩
      exact ⟨y, mem_years.mpr ⟨h1, h2⟩, m, mem_monthsList.mpr ⟨h3, h4⟩,
        rfl, rfl⟩
  refine ⟨?_, ?_, hmem, ?_⟩
  · have := congrArg List.length hkeys
    rw [List.length_map] at this
    rw [this]
    rfl
  · exact monthlyRain_keys_nodup (chirps chirpsRaw)
  · intro b hb y m h1 h2 h3 h4
    have := (hmem y m).mpr ⟨h1, h2, h3, h4⟩
    rcases List.mem_map.mp this with ⟨mi, hmi, hk⟩
    refine ⟨⟨b, mi.year, mi.month, (mi.pix 5000 b).bind meanOfPixels⟩,
      mem_rainTable.mpr ⟨mi, hmi, b, hb, rfl⟩, rfl, ?_, ?_⟩
    · exact congrArg Prod.fst hk
    · exact congrArg (fun p => p.2) hk

/-- C10: `filterDate` treats its end date '2024-12-31' as exclusive: every
source collection contains only scenes dated strictly before 2024-12-31,
and the December 2024 monthly rainfall sum draws only on daily images dated
2024-12-01 through 2024-12-30 — at most 30 of the month's 31 days, the
2024-12-31 daily being excluded. -/
theorem c10_end_date_exclusive (s2Raw : List S2Image)
    (chirpsRaw etRaw modisRaw : List Image)
    (hch : ∀ i ∈ chirpsRaw, i.date.validYMD) :
    (∀ img ∈ s2 s2Raw, img.date.before ⟨2024, 12, 31⟩) ∧
    (∀ i ∈ chirps chirpsRaw, i.date.before ⟨2024, 12, 31⟩) ∧
    (∀ i ∈ etCol etRaw, i.date.before ⟨2024, 12, 31⟩) ∧
    (∀ i ∈ modisNdvi modisRaw, i.date.before ⟨2024, 12, 31⟩) ∧
    (∀ i ∈ filterDate Image.date (monthStart 2024 12)
        (nextMonthStart 2024 12) (chirps chirpsRaw),
      i.date.year = 2024 ∧ i.date.month = 12 ∧ 1 ≤ i.date.day ∧
        i.date.day ≤ 30) := by
  refine ⟨?_, ?_, ?_, ?_, ?_⟩
  · intro img hi
    rcases mem_s2.mp hi with ⟨j, _, _, _, h2, _, rfl⟩
    exact h2
  · intro i hi
    exact (mem_filterDate.mp hi).2.2
  · intro i hi
    rcases mem_mapScale.mp hi with ⟨j, hj, rfl⟩
    exact (mem_filterDate.mp hj).2.2
  · intro i hi
    rcases mem_mapScale.mp hi with ⟨j, hj, rfl⟩
    exact (mem_filterDate.mp hj).2.2
  · intro i hi
    rcases mem_filterDate.mp hi with ⟨hic, h1, h2⟩
    rcases mem_filterDate.mp hic with ⟨hib, _, hglob⟩
    rcases mem_filterBounds.mp hib with ⟨hir, _⟩
    have hv := hch i hir
    have hym : i.date.year = 2024 ∧ i.date.month = 12 :=
      (window_iff_month hv).mp ⟨h1, h2⟩
    unfold Date.validYMD at hv
    simp only [endDate, Date.before] at hglob
    refine ⟨hym.1, hym.2, hv.2.2.1, ?_⟩
    omega

/-- C1 counterexample: two cloud-free Sentinel-2 scenes of the same
calendar month (2019-03-05 and 2019-03-20) produce two rows for block 0
with the same (block, year, month) = (0, 2019, 3) in the exported NDVI
table — (block_id, year, month) is not a unique key of that exported
table. -/
theorem c1_counterexample :
    ¬ uniqueKey (ndviTableS2 [0] [cexS2a, cexS2b]) := by
  intro h
  have hkeys : (ndviTableS2 [0] [cexS2a, cexS2b]).map
      (fun r => (r.block, r.year, r.month)) =
        [(0, 2019, 3), (0, 2019, 3)] := rfl
  have hnd := (uniqueKey_iff_nodup _).mp h
  rw [hkeys] at hnd
  simp at hnd

/-- C1 amended: (block, year, month) is a unique key of the exported
rainfall table (whose row value is the block mean of the calendar-month
sum); the NDVI and ET tables instead contain one row per (scene, block) —
year and month only tag the scene's acquisition month, and several scenes
may share a month. -/
theorem c1_amended_unique_key (blocks : List Nat) (hb : blocks.Nodup)
    (s2Raw : List S2Image) (chirpsRaw etRaw modisRaw : List Image) :
    uniqueKey (rainTable blocks chirpsRaw) ∧
    (ndviTableS2 blocks s2Raw).length = (s2 s2Raw).length * blocks.length ∧
    (etTable blocks etRaw).length = (etCol etRaw).length * blocks.length ∧
    (ndviTableModis blocks modisRaw).length =
      (modisNdvi modisRaw).length * blocks.length := by
  refine ⟨?_, length_reduceTable blocks 10 (s2 s2Raw),
    length_reduceTable blocks 500 (etCol etRaw),
    length_reduceTable blocks 250 (modisNdvi modisRaw)⟩
  rw [uniqueKey_iff_nodup, rainTable_keys, List.nodup_flatMap]
  constructor
  · intro mi _
    exact hb.map fun b b' h => by
      simpa using congrArg Prod.fst h
  · have hp := List.pairwise_map.mp (monthlyRain_keys_nodup (chirps chirpsRaw))
    refine hp.imp ?_
    intro a c hne x hxa hxc
    rcases List.mem_map.mp hxa with ⟨b1, _, rfl⟩
    rcases List.mem_map.mp hxc with ⟨b2, _, hx⟩
    apply hne
    have h2 := congrArg (fun p : Nat × Int × Int => p.2) hx
    simpa using h2.symm

theorem mem_chirps_raw {raw : List Image} {i : Image}
    (h : i ∈ chirps raw) : i ∈ raw := by
  rcases mem_filterDate.mp h with ⟨h1, _, _⟩
  exact (mem_filterBounds.mp h1).1

/-- The script's month filter over the globally filtered dailies equals a
single pass over the raw collection keeping the images of calendar month
`(y, m)` that intersect the blocks and lie in the extraction window. -/
theorem monthFilter_eq_windowed (raw : List Image) (y m : Int)
    (hval : ∀ i ∈ raw, i.date.validYMD) :
    filterDate Image.date (monthStart y m) (nextMonthStart y m)
        (chirps raw) =
      raw.filter fun i =>
        decide ((i.date.year = y ∧ i.date.month = m) ∧
          i.intersectsBlocks = true ∧
          ¬ i.date.before startDate ∧ i.date.before endDate) := by
  simp only [chirps, filterDate, filterBounds, List.filter_filter]
  refine List.filter_congr ?_
  intro a ha
  have hw := window_iff_month (y := y) (m := m) (hval a ha)
  by_cases hI : a.intersectsBlocks = true <;>
    by_cases hG : (¬ a.date.before startDate ∧ a.date.before endDate) <;>
      by_cases hM : (a.date.year = y ∧ a.date.month = m) <;>
        simp [hI, hG, hM, hw, Bool.not_eq_true] at *

/-- C2 counterexample: with daily rainfall images on 2024-12-15 (block
mean 2) and 2024-12-31 (block mean 5), the December 2024 rainfall row of
block 0 carries the value 2, while the sum over all daily images whose date
falls within calendar month (2024, 12) of the block's mean daily value is
7: the 2024-12-31 daily lies within the calendar month but is excluded by
the exclusive end date of the global date filter. -/
theorem c2_counterexample :
    (rainTable [0] [cexRainMid, cexRainLast]).filter
        (fun r => decide (r.year = 2024 ∧ r.month = 12)) =
      [⟨0, 2024, 12, some 2⟩] ∧
    calendarMonthSumOfDailyMeans [cexRainMid, cexRainLast] 2024 12 5000 0 =
      some 7 ∧
    some (2 : ℚ) ≠ some (7 : ℚ) := by
  refine ⟨?_, ?_, by norm_num⟩
  · norm_num [rainTable, monthlyRain, chirps, filterBounds, filterDate,
      reduceRegionsMeanMonthly, meanOfPixels, sumPix, years, monthsList,
      monthStart, nextMonthStart, startDate, endDate, Date.before,
      cexRainMid, cexRainLast, zipAdd, List.filter_cons]
  · norm_num [calendarMonthSumOfDailyMeans, meanOfPixels, cexRainMid,
      cexRainLast, List.filterMap_cons]

/-- C2 amended: the monthly rainfall value of a block equals the sum of the
block's mean daily values over the daily rainfall images whose date falls
within calendar month (y, m) AND within the extraction window
[2019-01-01, 2024-12-31), whose end date is exclusive; away from December
2024 (and with the dailies intersecting the blocks) the window restriction
changes nothing, so only December 2024 deviates from a full calendar-month
sum. -/
theorem c2_amended_windowed_month_sum (blocks : List Nat) (raw : List Image)
    (b : Nat) (n : Nat) (hb : b ∈ blocks)
    (hval : ∀ i ∈ raw, i.date.validYMD)
    (hlen : ∀ i ∈ raw, (i.pix 5000 b).length = n) (hn : 0 < n) :
    (∀ y m : Int, y ∈ years → m ∈ monthsList →
      ∃ r ∈ rainTable blocks raw, r.block = b ∧ r.year = y ∧ r.month = m ∧
        r.value = windowedCalendarMonthSum raw y m 5000 b) ∧
    (∀ y m : Int, (∀ i ∈ raw, i.intersectsBlocks = true) →
      2019 ≤ y → y ≤ 2024 → 1 ≤ m → m ≤ 12 → ¬(y = 2024 ∧ m = 12) →
      windowedCalendarMonthSum raw y m 5000 b =
        calendarMonthSumOfDailyMeans raw y m 5000 b) := by
  constructor
  · intro y m hy hm
    have hLR := monthFilter_eq_windowed raw y m hval
    have hmem : (⟨y, m, fun s b' =>
        sumPix (filterDate Image.date (monthStart y m) (nextMonthStart y m)
          (chirps raw)) s b'⟩ : MonthlyImage) ∈ monthlyRain (chirps raw) :=
      mem_monthlyRain.mpr ⟨y, hy, m, hm, rfl⟩
    refine ⟨⟨b, y, m, (sumPix (filterDate Image.date (monthStart y m)
        (nextMonthStart y m) (chirps raw)) 5000 b).bind meanOfPixels⟩,
      mem_rainTable.mpr ⟨_, hmem, b, hb, rfl⟩, rfl, rfl, rfl, ?_⟩
    have hlenL : ∀ i ∈ filterDate Image.date (monthStart y m)
        (nextMonthStart y m) (chirps raw), (i.pix 5000 b).length = n := by
      intro i hi
      exact hlen i (mem_chirps_raw (mem_filterDate.mp hi).1)
    simp only [sumPix_bind_mean hn hlenL, windowedCalendarMonthSum, ← hLR,
      filterMap_mean_eq hn hlenL]
    rcases hE : (filterDate Image.date (monthStart y m)
        (nextMonthStart y m) (chirps raw)).isEmpty with _ | _
    · simp only [hE, if_false, Bool.false_eq_true]
      rw [show ((filterDate Image.date (monthStart y m) (nextMonthStart y m)
          (chirps raw)).map fun i => (i.pix 5000 b).sum / (n : ℚ)) =
          ((filterDate Image.date (monthStart y m) (nextMonthStart y m)
            (chirps raw)).map fun i => (i.pix 5000 b).sum).map
              (· / (n : ℚ)) by
        rw [List.map_map]; rfl]
      rw [sum_map_div]
    · simp [hE]
  · intro y m hIall h1 h2 h3 h4 hne
    simp only [windowedCalendarMonthSum, calendarMonthSumOfDailyMeans]
    have hfil : (raw.filter fun i =>
        decide ((i.date.year = y ∧ i.date.month = m) ∧
          i.intersectsBlocks = true ∧
          ¬ i.date.before startDate ∧ i.date.before endDate)) =
        raw.filter fun i => decide (i.date.year = y ∧ i.date.month = m) := by
      refine List.filter_congr ?_
      intro a ha
      have hv := hval a ha
      have hI := hIall a ha
      by_cases hM : (a.date.year = y ∧ a.date.month = m)
      · have hG : ¬ a.date.before startDate ∧ a.date.before endDate := by
          unfold Date.validYMD at hv
          obtain ⟨hMy, hMm⟩ := hM
          simp only [Date.before, startDate, endDate]
          omega
        simp [hM, hI, hG.1, hG.2]
      · simp [hM]
    rw [hfil]

/-! ### Concrete instantiations of the theorems with hypotheses -/

/-- The amended C1 applied to one block and concrete scenes. -/
theorem c1_amended_unique_key_witness :
    uniqueKey (rainTable [0] [cexRainMid]) ∧
    (ndviTableS2 [0] [cexS2a]).length = (s2 [cexS2a]).length * [0].length ∧
    (etTable [0] [cexRainMid]).length =
      (etCol [cexRainMid]).length * [0].length ∧
    (ndviTableModis [0] [cexRainMid]).length =
      (modisNdvi [cexRainMid]).length * [0].length :=
  c1_amended_unique_key [0] (by decide) [cexS2a] [cexRainMid] [cexRainMid]
    [cexRainMid]

/-- The amended C2 applied to block 0, one daily scene, December 2024. -/
theorem c2_amended_windowed_month_sum_witness :
    ∃ r ∈ rainTable [0] [cexRainMid], r.block = 0 ∧ r.year = 2024 ∧
      r.month = 12 ∧
      r.value = windowedCalendarMonthSum [cexRainMid] 2024 12 5000 0 :=
  (c2_amended_windowed_month_sum [0] [cexRainMid] 0 1 (by decide)
    (by decide) (by decide) (by decide)).1 2024 12 (by decide) (by decide)

/-- C7 applied to the rainfall export of an empty daily collection: its
January 2019 row of block 0. -/
theorem c7_rows_tagged_witness :
    (0 : Nat) ∈ ([0] : List Nat) ∧ (1 : Int) ≤ 1 ∧ (1 : Int) ≤ 12 ∧
    ∃ ps : List ℚ, (none : Option ℚ) = meanOfPixels ps := by
  have h := c7_rows_tagged [0] [cexS2a] [] [] [] (by decide) (by decide)
    (by decide)
  exact h
    { table := rainTable [0] [], description := "Bihar_Block_Rainfall",
      fileFormat := "CSV" }
    (by simp [scriptExports])
    ⟨0, 2019, 1, none⟩
    (mem_rainTable.mpr ⟨⟨2019, 1, fun s b =>
        sumPix (filterDate Image.date (monthStart 2019 1)
          (nextMonthStart 2019 1) (chirps [])) s b⟩,
      mem_monthlyRain.mpr ⟨2019, by decide, 1, by decide, rfl⟩, 0,
      by decide, rfl⟩)

/-- C10 applied to two concrete December 2024 dailies. -/
theorem c10_end_date_exclusive_witness :
    cexRainMid.date.before ⟨2024, 12, 31⟩ ∧
    (cexRainMid.date.year = 2024 ∧ cexRainMid.date.month = 12 ∧
      1 ≤ cexRainMid.date.day ∧ cexRainMid.date.day ≤ 30) := by
  have h := c10_end_date_exclusive [] [cexRainMid, cexRainLast] [] []
    (by decide)
  constructor
  · exact h.2.1 cexRainMid (mem_filterDate.mpr
      ⟨mem_filterBounds.mpr ⟨List.mem_cons_self _ _, rfl⟩, by decide,
        by decide⟩)
  · exact h.2.2.2.2 cexRainMid (mem_filterDate.mpr
      ⟨mem_filterDate.mpr ⟨mem_filterBounds.mpr
          ⟨List.mem_cons_self _ _, rfl⟩, by decide, by decide⟩,
        by decide, by decide⟩)

end BiharAtlas
